import Mathlib

/-!
Verification of the cgroup-aware CPU-count resolution pipeline
(src/src/linux.rs of the num_cpus fork under review).

The Rust code is shallowly embedded: file reads become values of type
Option String supplied by an abstract read-only file system, iterator
pipelines become list functions, and the process-wide Once/atomic cache
becomes an explicit state machine.  Machine integers are modelled as Nat
(usize parsing failures are modelled faithfully; arithmetic overflow of
usize is out of range for every quantity considered here).  The f64
ceiling division in Cgroup::cpu_quota is modelled as exact rational
division followed by Int.ceil, which agrees with f64 for all operands
below 2^53.
-/

set_option maxHeartbeats 1000000

namespace NumCpus

/-! ### Rust string primitives

List-of-characters models of the std string operations the source uses:
str::split(char) (keeps empty pieces), str::trim, str::lines().next(),
and usize::from_str (optional leading plus sign, then one or more ASCII
digits; anything else fails, in particular a minus sign or the literal
word max). -/

/-- Model of Rust str::split(sep) on the character list: splits at every
occurrence of sep, keeping empty pieces (so the result is always
nonempty, and splitting the empty string yields one empty piece). -/
def splitCharList (sep : Char) : List Char → List (List Char)
  | [] => [[]]
  | c :: rest =>
    match splitCharList sep rest with
    | [] => [[c]]
    | h :: t => if c = sep then [] :: h :: t else (c :: h) :: t

/-- Rust str::split(sep) producing strings. -/
def splitChar (sep : Char) (s : String) : List String :=
  (splitCharList sep s.data).map String.mk

/-- Whitespace predicate used by Rust str::trim.  Rust uses the Unicode
White_Space property; the inputs in scope are ASCII, where this agrees
with Char.isWhitespace. -/
def rustIsWhitespace (c : Char) : Bool :=
  c.isWhitespace

/-- Model of Rust str::trim: drop whitespace from both ends. -/
def trimChars (cs : List Char) : List Char :=
  ((cs.dropWhile rustIsWhitespace).reverse.dropWhile rustIsWhitespace).reverse

/-- Rust str::trim on strings. -/
def trimString (s : String) : String :=
  String.mk (trimChars s.data)

/-- Numeric value of a digit list (most significant first). -/
def digitsVal (cs : List Char) : Nat :=
  cs.foldl (fun acc c => acc * 10 + (c.toNat - 48)) 0

/-- A nonempty all-digit character list parses to its value; anything
else fails. -/
def parseDigits (cs : List Char) : Option Nat :=
  if cs.isEmpty then none
  else if cs.all Char.isDigit then some (digitsVal cs) else none

/-- Model of Rust usize::from_str: an optional leading plus sign, then
one or more ASCII digits.  A minus sign, an empty string, or any
non-digit character yields a parse error (None).  usize overflow, which
also errors in Rust, is not modelled (Nat is unbounded); every quantity
the claims touch is far below 2^64. -/
def parseUsizeChars : List Char → Option Nat
  | '+' :: rest => parseDigits rest
  | cs => parseDigits cs

/-- Rust str::parse::<usize>() on strings. -/
def parseUsize (s : String) : Option Nat :=
  parseUsizeChars s.data

/-- Model of Rust str::lines().next(): None on the empty string,
otherwise the text before the first newline, with one trailing carriage
return removed. -/
def rustFirstLine (s : String) : Option String :=
  match s.data with
  | [] => none
  | cs =>
    let l := cs.takeWhile (fun c => c ≠ '\n')
    let l := if l.getLast? = some '\r' then l.dropLast else l
    some (String.mk l)

/-! ### Paths

Rust std::path::Path compares and strips prefixes by whole components,
not by string characters.  A path is modelled by its component list:
for an absolute path a leading root marker "/" followed by the nonempty
segments between separators; repeated separators and "." segments
disappear, exactly as in Path::components. -/

/-- Component list of a path string, in the sense of Rust
Path::components: a root marker "/" when the string starts with a
separator, then the maximal nonempty segments, with "." segments
dropped.  PathBuf equality in Rust is equality of these lists. -/
def pathComponents (s : String) : List String :=
  let segs := (splitChar '/' s).filter (fun seg => seg != "" && seg != ".")
  match s.data with
  | '/' :: _ => "/" :: segs
  | _ => segs

/-- Model of Rust Path::strip_prefix on component lists: succeeds iff
the components of the prefix are an initial run of the components of
the path, returning the remaining components. -/
def stripPrefixSegs (path pre : List String) : Option (List String) :=
  if path.take pre.length = pre then some (path.drop pre.length) else none

/-! ### Data model (lines 154-174 of linux.rs) -/

inductive CgroupVersion
  | V1
  | V2
deriving DecidableEq, Repr

/-- Resolved cgroup directory; base holds the components of the
directory path (Cgroup { version, base: PathBuf }). -/
structure Cgroup where
  version : CgroupVersion
  base : List String
deriving DecidableEq, Repr

structure MountInfo where
  version : CgroupVersion
  root : String
  mount_point : String
deriving DecidableEq, Repr

structure Subsys where
  version : CgroupVersion
  base : String
deriving DecidableEq, Repr

/-- Abstract read-only file system backing Cgroup::raw_param: given the
component list of a directory and a file name, the contents that
File::open + read_to_string would deliver (None for any failure). -/
def FS : Type := List String → String → Option String

/-! ### Cgroup methods (lines 176-247 of linux.rs) -/

/-- Cgroup::translate: rebase the subsystem path onto the mount point.
Path::new(subsys.base).strip_prefix(mntinfo.root) by components, then
PathBuf::from(mount_point).push(remainder). -/
def Cgroup.translate (mntinfo : MountInfo) (subsys : Subsys) : Option Cgroup :=
  match stripPrefixSegs (pathComponents subsys.base) (pathComponents mntinfo.root) with
  | none => none
  | some rel_from_root =>
    some (Cgroup.mk mntinfo.version (pathComponents mntinfo.mount_point ++ rel_from_root))

/-- Cgroup::raw_param: open base/param and read it to a string. -/
def Cgroup.raw_param (fs : FS) (c : Cgroup) (param : String) : Option String :=
  fs c.base param

/-- Cgroup::param: raw_param, trim, parse as usize. -/
def Cgroup.param (fs : FS) (c : Cgroup) (param : String) : Option Nat :=
  match Cgroup.raw_param fs c param with
  | none => none
  | some buf => parseUsize (trimString buf)

/-- Cgroup::quota_us (v1 file cpu.cfs_quota_us). -/
def Cgroup.quota_us (fs : FS) (c : Cgroup) : Option Nat :=
  Cgroup.param fs c "cpu.cfs_quota_us"

/-- Cgroup::period_us (v1 file cpu.cfs_period_us). -/
def Cgroup.period_us (fs : FS) (c : Cgroup) : Option Nat :=
  Cgroup.param fs c "cpu.cfs_period_us"

/-- Cgroup::max (v2 file cpu.max): first line, split on a single space,
parse the first token as the quota and the second as the period. -/
def Cgroup.max (fs : FS) (c : Cgroup) : Option (Nat × Nat) :=
  match Cgroup.raw_param fs c "cpu.max" with
  | none => none
  | some buf =>
    match rustFirstLine buf with
    | none => none
    | some line =>
      let toks := splitChar ' ' line
      match toks.head?.bind parseUsize with
      | none => none
      | some quota =>
        match (toks.drop 1).head?.bind parseUsize with
        | none => none
        | some period => some (quota, period)

/-- Cgroup::cpu_quota: version-specific quota/period read, zero-period
guard, then ceiling division.  The source computes
(quota as f64 / period as f64).ceil() as usize; it is modelled as exact
rational division with Int.ceil (equal for all operands below 2^53),
and the as-usize cast of the nonnegative result as Int.toNat. -/
def Cgroup.cpu_quota (fs : FS) (c : Cgroup) : Option Nat :=
  let qp : Option (Nat × Nat) :=
    match c.version with
    | CgroupVersion.V1 =>
      match Cgroup.quota_us fs c, Cgroup.period_us fs c with
      | some q, some p => some (q, p)
      | _, _ => none
    | CgroupVersion.V2 => Cgroup.max fs c
  match qp with
  | none => none
  | some (quota_us, period_us) =>
    if period_us = 0 then none
    else some (Int.toNat ⌈(quota_us : ℚ) / (period_us : ℚ)⌉)

/-! ### MountInfo parsing (lines 249-302 of linux.rs) -/

/-- Body of MountInfo::parse_line after the split on a single space:
field 3 is the root and field 4 the mount point; skip optional fields up
to the "-" separator; the next token decides the version (cgroup/
cgroup2); for v1 the super options (one further field after the fs
type's duplicate) must list the option cpu. -/
def MountInfo.parse_fields (fields : List String) : Option MountInfo :=
  match fields.get? 3 with
  | none => none
  | some mnt_root =>
    match fields.get? 4 with
    | none => none
    | some mnt_point =>
      match (fields.drop 5).dropWhile (fun s => s != "-") with
      | [] => none
      | _ :: rest =>
        match rest with
        | [] => none
        | fstype :: rest2 =>
          match (if fstype = "cgroup" then some CgroupVersion.V1
                 else if fstype = "cgroup2" then some CgroupVersion.V2
                 else none) with
          | none => none
          | some version =>
            if version = CgroupVersion.V1 then
              match rest2.get? 1 with
              | none => none
              | some super_opts =>
                if (splitChar ',' super_opts).any (fun opt => opt == "cpu") then
                  some (MountInfo.mk version mnt_root mnt_point)
                else none
            else some (MountInfo.mk version mnt_root mnt_point)

/-- MountInfo::parse_line: split the line on a single space and walk the
fields. -/
def MountInfo.parse_line (line : String) : Option MountInfo :=
  MountInfo.parse_fields (splitChar ' ' line)

/-- MountInfo::load_cpu: lines of the mount table (None when the file
cannot be opened; I/O-failed lines are dropped by the filter_map in the
source, so the input is the list of successfully read lines), parsed
individually, first hit of the requested version wins. -/
def MountInfo.load_cpu (fileLines : Option (List String)) (version : CgroupVersion) :
    Option MountInfo :=
  match fileLines with
  | none => none
  | some ls =>
    (ls.filterMap MountInfo.parse_line).find? (fun mount_info => mount_info.version == version)

/-! ### Subsys parsing (lines 304-344 of linux.rs) -/

/-- Subsys::parse_line: split on a colon; field 1 is the controller
list (empty means v2), field 2 the cgroup path; a v1 line is kept only
when the controller list names cpu. -/
def Subsys.parse_line (line : String) : Option Subsys :=
  let fields := splitChar ':' line
  match fields.get? 1 with
  | none => none
  | some sub_systems =>
    let version :=
      if sub_systems = "" then CgroupVersion.V2 else CgroupVersion.V1
    if version == CgroupVersion.V1
        && !((splitChar ',' sub_systems).any (fun sub => sub == "cpu")) then
      none
    else
      (fields.get? 2).map (fun path => Subsys.mk version path)

/-- The fold step of Subsys::load_cpu: an already-found v1 result is
never replaced by a later v2 line (v1 explicitly specifies its
controllers), while any line replaces an absent or v2 result. -/
def Subsys.fold_tiebreak (previous : Option Subsys) (line : Subsys) : Option Subsys :=
  if previous.isSome && line.version == CgroupVersion.V2 then previous
  else some line

/-- Subsys::load_cpu: parse every line of the membership descriptor and
fold with the v1-over-v2 tie-break. -/
def Subsys.load_cpu (fileLines : Option (List String)) : Option Subsys :=
  match fileLines with
  | none => none
  | some ls =>
    (ls.filterMap Subsys.parse_line).foldl Subsys.fold_tiebreak none

/-! ### Orchestration (lines 32-152 of linux.rs) -/

/-- load_cgroups: Subsys -> MountInfo (same version) -> translate ->
cpu_quota, short-circuiting on the first None. -/
def load_cgroups (cgroup_lines mountinfo_lines : Option (List String)) (fs : FS) :
    Option Nat :=
  match Subsys.load_cpu cgroup_lines with
  | none => none
  | some subsys =>
    match MountInfo.load_cpu mountinfo_lines subsys.version with
    | none => none
    | some mntinfo =>
      match Cgroup.translate mntinfo subsys with
      | none => none
      | some cgroup => Cgroup.cpu_quota fs cgroup

/-- The process environment a resolution run reads: the lines of
/proc/self/cgroup and /proc/self/mountinfo (None when unreadable), the
quota-file system, and the logical CPU count that logical_cpus() (an
affinity/sysconf query, out of scope) would report. -/
structure Env where
  cgroup_lines : Option (List String)
  mountinfo_lines : Option (List String)
  fs : FS
  logical : Nat

/-- The process-wide mutable state: the Once flag and the CGROUPS_CPUS
atomic (0 meaning "no quota", its initial value). -/
structure ProcState where
  once_done : Bool
  cgroups_cpus : Nat
deriving Repr

/-- Process start: Once not yet run, CGROUPS_CPUS = 0. -/
def ProcState.initial : ProcState :=
  ProcState.mk false 0

/-- init_cgroups: the value CGROUPS_CPUS holds after the one-time
initializer ran.  It stores min(quota, logical) when load_cgroups found
a non-zero quota and leaves the initial 0 otherwise.  (The cfg!(miri)
early return is compiled out in a normal build and is not modelled.) -/
def init_cgroups (env : Env) : Nat :=
  match load_cgroups env.cgroup_lines env.mountinfo_lines env.fs with
  | none => 0
  | some quota =>
    if quota = 0 then 0
    else min quota env.logical

/-- cgroups_num_cpus as a state transition: ONCE.call_once(init_cgroups)
runs the initializer only when it has not run yet (std::sync::Once makes
that step atomic; an interleaving of calls is therefore a sequence of
these transitions), then the cached CGROUPS_CPUS is read and 0 is mapped
to None. -/
def cgroups_num_cpus (env : Env) (st : ProcState) : Option Nat × ProcState :=
  let st2 := if st.once_done then st else ProcState.mk true (init_cgroups env)
  let cpus := st2.cgroups_cpus
  (if cpus > 0 then some cpus else none, st2)

/-- A sequence of cgroups_num_cpus calls, each possibly observing a
different environment (the files may have changed between calls);
returns the observed results and the final state. -/
def run_calls : List Env → ProcState → List (Option Nat) × ProcState
  | [], st => ([], st)
  | env :: rest, st =>
    let (r, st2) := cgroups_num_cpus env st
    let (rs, st3) := run_calls rest st2
    (r :: rs, st3)

/-- get_num_cpus of this fork: hard-coded to 2 (the source comment says
"Force return 2 cores to avoid AVX2 issue"); it consults neither the
cgroup cache nor the affinity mask. -/
def get_num_cpus : Nat := 2

/-- Modelled from the spec: effective_logical_cpu_count as section 4.5
and 6 describe it — min(quota, logical) when cgroup resolution found a
non-zero quota, the logical CPU count otherwise.  Stated only to compare
get_num_cpus against the specified behaviour. -/
def effective_logical_cpu_count_spec (quota : Option Nat) (logical : Nat) : Nat :=
  match quota with
  | some q => min q logical
  | none => logical

/-! ### Concrete fixtures used to instantiate the theorems -/

/-- A file system on which every read fails. -/
def fsEmpty : FS := fun _ _ => none

/-- An environment in which both proc files are unreadable. -/
def envUnreadable : Env :=
  Env.mk none none fsEmpty 4

/-- v1 quota directory holding the fractional pair 1100000 / 1000000
(the ceil fixture of the source's test suite). -/
def fsCeilV1 : FS := fun _ name =>
  if name = "cpu.cfs_quota_us" then some "1100000\n"
  else if name = "cpu.cfs_period_us" then some "1000000\n"
  else none

/-- v2 quota directory whose cpu.max reports an unlimited quota. -/
def fsMaxV2 : FS := fun _ name =>
  if name = "cpu.max" then some "max 100000\n" else none

/-- v1 quota directory holding the kernel's -1 unlimited sentinel. -/
def fsNegV1 : FS := fun _ name =>
  if name = "cpu.cfs_quota_us" then some "-1\n"
  else if name = "cpu.cfs_period_us" then some "100000\n"
  else none

/-- A v1 mount-table line with one optional field, as in the source's
doc comment. -/
def mountLineFixture : String :=
  "7 5 0:6 / /sys/fs/cgroup/cpu,cpuacct rw shared:7 - cgroup cgroup rw,cpu,cpuacct"

/-! ### Helper lemmas -/

/-- Ceiling of an exact rational division of naturals equals the
add-predecessor-divide formula. -/
lemma ceil_cast_div_eq (q p : Nat) (hp : 0 < p) :
    ⌈(q : ℚ) / (p : ℚ)⌉ = (((q + p - 1) / p : Nat) : ℤ) := by
  have hd : (q + p - 1) / p * p + (q + p - 1) % p = q + p - 1 := Nat.div_add_mod' _ _
  have hm : (q + p - 1) % p < p := Nat.mod_lt _ hp
  have h1 : q ≤ (q + p - 1) / p * p := by
    generalize hA : (q + p - 1) / p * p = A at hd ⊢
    generalize hB : (q + p - 1) % p = B at hd hm
    omega
  have h2 : (q + p - 1) / p * p < q + p := by
    generalize hA : (q + p - 1) / p * p = A at hd ⊢
    generalize hB : (q + p - 1) % p = B at hd hm
    omega
  have hp2 : (0 : ℚ) < (p : ℚ) := by exact_mod_cast hp
  rw [Int.ceil_eq_iff]
  constructor
  · rw [lt_div_iff₀ hp2, sub_mul, one_mul, sub_lt_iff_lt_add]
    exact_mod_cast h2
  · rw [div_le_iff₀ hp2]
    exact_mod_cast h1

/-- A list starts with the first pre.length elements being pre exactly
when it decomposes as pre followed by a remainder. -/
lemma take_len_eq_iff (pre path : List String) :
    path.take pre.length = pre ↔ ∃ rest, path = pre ++ rest := by
  constructor
  · intro h
    refine ⟨path.drop pre.length, ?_⟩
    conv_lhs => rw [← List.take_append_drop pre.length path]
    rw [h]
  · rintro ⟨rest, rfl⟩
    exact List.take_left pre rest

/-- dropWhile for a not-the-separator test skips any run of fields not
containing the separator. -/
lemma dropWhile_sep_append (xs ys : List String) (h : "-" ∉ xs) :
    (xs ++ ys).dropWhile (fun s => s != "-") = ys.dropWhile (fun s => s != "-") := by
  induction xs with
  | nil => rfl
  | cons x xs ih =>
    have hx : x ≠ "-" := by
      intro hx
      exact h (hx ▸ List.mem_cons_self x xs)
    have hxs : "-" ∉ xs := fun hm => h (List.mem_cons_of_mem x hm)
    simp only [List.cons_append, List.dropWhile_cons]
    simp [hx, ih hxs]

/-- dropWhile for a not-the-separator test exhausts a list without the
separator. -/
lemma dropWhile_sep_nil (xs : List String) (h : "-" ∉ xs) :
    xs.dropWhile (fun s => s != "-") = [] := by
  have := dropWhile_sep_append xs [] h
  simpa using this

/-- A character list starting with a minus never parses as usize. -/
lemma parseUsizeChars_neg (cs : List Char) (h : cs.head? = some '-') :
    parseUsizeChars cs = none := by
  cases cs with
  | nil => simp at h
  | cons c rest =>
    have hc : c = '-' := by simpa using h
    subst hc
    rfl

/-- The fold of Subsys::load_cpu yields a v1 result as soon as the
parsed lines contain one, whatever the accumulator. -/
lemma foldl_tiebreak_v1 (ps : List Subsys) (acc : Option Subsys)
    (h : (∃ s ∈ ps, s.version = CgroupVersion.V1) ∨
      (∃ a, acc = some a ∧ a.version = CgroupVersion.V1)) :
    ∃ s, ps.foldl Subsys.fold_tiebreak acc = some s ∧ s.version = CgroupVersion.V1 := by
  induction ps generalizing acc with
  | nil =>
    rcases h with ⟨s, hs, _⟩ | ⟨a, ha, hv⟩
    · simp at hs
    · exact ⟨a, by simpa using ha, hv⟩
  | cons p ps ih =>
    simp only [List.foldl_cons]
    rcases hpv : p.version with _ | _
    · -- p is v1: the accumulator becomes some p
      have hstep : Subsys.fold_tiebreak acc p = some p := by
        simp [Subsys.fold_tiebreak, hpv]
      rw [hstep]
      exact ih (some p) (Or.inr ⟨p, rfl, hpv⟩)
    · -- p is v2
      rcases h with ⟨s, hs, hv⟩ | ⟨a, ha, hav⟩
      · rcases List.mem_cons.mp hs with rfl | hs2
        · rw [hpv] at hv
          exact absurd hv (by simp)
        · exact ih _ (Or.inl ⟨s, hs2, hv⟩)
      · subst ha
        have hstep : Subsys.fold_tiebreak (some a) p = some a := by
          simp [Subsys.fold_tiebreak, hpv]
        rw [hstep]
        exact ih _ (Or.inr ⟨a, rfl, hav⟩)

/-- After the Once flag is set, further calls neither change the state
nor look at their environment. -/
lemma run_calls_after_init (envs : List Env) (st : ProcState) (h : st.once_done = true) :
    run_calls envs st =
      (envs.map (fun _ => if st.cgroups_cpus > 0 then some st.cgroups_cpus else none), st) := by
  induction envs with
  | nil => rfl
  | cons env rest ih =>
    simp only [run_calls, cgroups_num_cpus, h, if_true, List.map_cons]
    rw [ih]

/-! ### Claims -/

/-- C1, counterexample: the public get_num_cpus is not the cgroup-aware
effective count the spec describes.  In the process state where cgroup
resolution finds no quota and the logical CPU count is 8, the spec's
effective_logical_cpu_count is 8, but get_num_cpus returns the
hard-coded 2. -/
theorem get_num_cpus_not_cgroup_aware :
    get_num_cpus = 2 ∧ effective_logical_cpu_count_spec none 8 = 8 ∧
    get_num_cpus ≠ effective_logical_cpu_count_spec none 8 := by
  decide

/-- C1, amended: get_num_cpus returns the constant 2 regardless of the
process state (the fork hard-codes it and never consults the cgroup
cache or the affinity mask); the result is never zero and never less
than 1. -/
theorem get_num_cpus_constant_two :
    get_num_cpus = 2 ∧ get_num_cpus ≠ 0 ∧ 1 ≤ get_num_cpus := by
  decide

/-- C2: for every successfully read quota/period pair (v1 pairs from the
two cfs files, v2 pairs from cpu.max), cpu_quota is None when the period
is zero — so the division is never performed with a zero divisor — and
otherwise equals the ceiling of the exact division, which is the natural
number (quota + period - 1) / period; in particular 1100000/1000000
gives 2 and 600000/100000 gives 6. -/
theorem cpu_quota_is_ceil_div :
    ∀ (fs : FS) (c : Cgroup) (quota period : Nat),
      ((c.version = CgroupVersion.V1 ∧ Cgroup.quota_us fs c = some quota ∧
          Cgroup.period_us fs c = some period) ∨
        (c.version = CgroupVersion.V2 ∧ Cgroup.max fs c = some (quota, period))) →
      (period = 0 → Cgroup.cpu_quota fs c = none) ∧
      (0 < period →
        Cgroup.cpu_quota fs c = some ((quota + period - 1) / period) ∧
        (((quota + period - 1) / period : Nat) : ℤ) = ⌈(quota : ℚ) / (period : ℚ)⌉) ∧
      (quota = 1100000 → period = 1000000 → Cgroup.cpu_quota fs c = some 2) ∧
      (quota = 600000 → period = 100000 → Cgroup.cpu_quota fs c = some 6) := by
  intro fs c quota period h
  have hq : Cgroup.cpu_quota fs c =
      (if period = 0 then none
       else some (Int.toNat ⌈(quota : ℚ) / (period : ℚ)⌉)) := by
    obtain ⟨ver, base⟩ := c
    rcases h with ⟨hv, h1, h2⟩ | ⟨hv, h1⟩
    · simp only at hv
      subst hv
      simp only [Cgroup.cpu_quota, h1, h2]
    · simp only at hv
      subst hv
      simp only [Cgroup.cpu_quota, h1]
  have hmain : 0 < period → Cgroup.cpu_quota fs c = some ((quota + period - 1) / period) := by
    intro hpos
    rw [hq, if_neg (Nat.pos_iff_ne_zero.mp hpos), ceil_cast_div_eq quota period hpos]
    rfl
  refine ⟨?_, ?_, ?_, ?_⟩
  · intro h0
    rw [hq, if_pos h0]
  · intro hpos
    exact ⟨hmain hpos, (ceil_cast_div_eq quota period hpos).symm⟩
  · rintro rfl rfl
    rw [hmain (by norm_num)]
  · rintro rfl rfl
    rw [hmain (by norm_num)]

/-- C2, witness: on the ceil fixture (quota file 1100000, period file
1000000) the pair is read successfully and cpu_quota reports 2. -/
theorem cpu_quota_is_ceil_div_witness :
    Cgroup.quota_us fsCeilV1 (Cgroup.mk CgroupVersion.V1 ["/"]) = some 1100000 ∧
    Cgroup.period_us fsCeilV1 (Cgroup.mk CgroupVersion.V1 ["/"]) = some 1000000 ∧
    Cgroup.cpu_quota fsCeilV1 (Cgroup.mk CgroupVersion.V1 ["/"]) = some 2 := by
  have hq : Cgroup.quota_us fsCeilV1 (Cgroup.mk CgroupVersion.V1 ["/"]) = some 1100000 := by
    decide
  have hp : Cgroup.period_us fsCeilV1 (Cgroup.mk CgroupVersion.V1 ["/"]) = some 1000000 := by
    decide
  have h := cpu_quota_is_ceil_div fsCeilV1 (Cgroup.mk CgroupVersion.V1 ["/"]) 1100000 1000000
    (Or.inl ⟨rfl, hq, hp⟩)
  exact ⟨hq, hp, h.2.2.1 rfl rfl⟩

/-- C3: translation succeeds exactly when the components of Subsys.base
extend the components of MountInfo.root (whole path segments), in which
case the result is the mount point followed by the remaining segments;
a mere string-prefix overlap (root /docker/01abcd against subsystem path
/docker/01abcd-other-dir) fails, while /docker/01abcd/large resolves to
/sys/fs/cgroup/cpu/large. -/
theorem translate_exact_segments :
    (∀ (mntinfo : MountInfo) (subsys : Subsys),
      (∃ c, Cgroup.translate mntinfo subsys = some c) ↔
        ∃ rest, pathComponents subsys.base = pathComponents mntinfo.root ++ rest) ∧
    (∀ (mntinfo : MountInfo) (subsys : Subsys) (rest : List String),
      pathComponents subsys.base = pathComponents mntinfo.root ++ rest →
      Cgroup.translate mntinfo subsys =
        some (Cgroup.mk mntinfo.version (pathComponents mntinfo.mount_point ++ rest))) ∧
    Cgroup.translate (MountInfo.mk CgroupVersion.V1 "/docker/01abcd" "/sys/fs/cgroup/cpu")
        (Subsys.mk CgroupVersion.V1 "/docker/01abcd-other-dir") = none ∧
    Cgroup.translate (MountInfo.mk CgroupVersion.V1 "/docker/01abcd" "/sys/fs/cgroup/cpu")
        (Subsys.mk CgroupVersion.V1 "/docker/01abcd/large") =
      some (Cgroup.mk CgroupVersion.V1 (pathComponents "/sys/fs/cgroup/cpu/large")) := by
  refine ⟨?_, ?_, by decide, by decide⟩
  · intro mntinfo subsys
    constructor
    · rintro ⟨c, hc⟩
      unfold Cgroup.translate stripPrefixSegs at hc
      by_cases h : (pathComponents subsys.base).take (pathComponents mntinfo.root).length =
          pathComponents mntinfo.root
      · exact (take_len_eq_iff _ _).mp h
      · rw [if_neg h] at hc
        exact absurd hc (by simp)
    · rintro ⟨rest, hrest⟩
      have h : (pathComponents subsys.base).take (pathComponents mntinfo.root).length =
          pathComponents mntinfo.root := (take_len_eq_iff _ _).mpr ⟨rest, hrest⟩
      refine ⟨Cgroup.mk mntinfo.version (pathComponents mntinfo.mount_point ++
        (pathComponents subsys.base).drop (pathComponents mntinfo.root).length), ?_⟩
      unfold Cgroup.translate stripPrefixSegs
      rw [if_pos h]
  · intro mntinfo subsys rest hrest
    have h : (pathComponents subsys.base).take (pathComponents mntinfo.root).length =
        pathComponents mntinfo.root := (take_len_eq_iff _ _).mpr ⟨rest, hrest⟩
    have hdrop : (pathComponents subsys.base).drop (pathComponents mntinfo.root).length = rest := by
      rw [hrest]
      exact List.drop_left _ _
    unfold Cgroup.translate stripPrefixSegs
    rw [if_pos h, hdrop]

/-- C4: the fold of Subsys::load_cpu keeps an already-found v1 result
against a later v2 line, replaces a v2 result with a later v1 line, and
therefore any membership file with at least one v1 line listing the cpu
controller resolves to a v1 Subsys wherever v2 lines appear. -/
theorem subsys_v1_sticky :
    (∀ (s l : Subsys), l.version = CgroupVersion.V2 →
      Subsys.fold_tiebreak (some s) l = some s) ∧
    (∀ (s l : Subsys), s.version = CgroupVersion.V2 → l.version = CgroupVersion.V1 →
      Subsys.fold_tiebreak (some s) l = some l) ∧
    (∀ ls : List String,
      (∃ line ∈ ls, ∃ s, Subsys.parse_line line = some s ∧ s.version = CgroupVersion.V1) →
      ∃ s, Subsys.load_cpu (some ls) = some s ∧ s.version = CgroupVersion.V1) := by
  refine ⟨?_, ?_, ?_⟩
  · intro s l hl
    simp [Subsys.fold_tiebreak, hl]
  · intro s l _ hl
    simp [Subsys.fold_tiebreak, hl]
  · rintro ls ⟨line, hline, s, hparse, hv⟩
    have hmem : s ∈ ls.filterMap Subsys.parse_line :=
      List.mem_filterMap.mpr ⟨line, hline, hparse⟩
    have h := foldl_tiebreak_v1 (ls.filterMap Subsys.parse_line) none (Or.inl ⟨s, hmem, hv⟩)
    simpa [Subsys.load_cpu] using h

/-- C4, witness: a file with a v2 line followed by a v1 cpu line
resolves to a v1 Subsys. -/
theorem subsys_v1_sticky_witness :
    (∃ line ∈ ["0::/a", "11:cpu,cpuacct:/b"], ∃ s, Subsys.parse_line line = some s ∧
      s.version = CgroupVersion.V1) ∧
    ∃ s, Subsys.load_cpu (some ["0::/a", "11:cpu,cpuacct:/b"]) = some s ∧
      s.version = CgroupVersion.V1 := by
  have hx : ∃ line ∈ ["0::/a", "11:cpu,cpuacct:/b"], ∃ s, Subsys.parse_line line = some s ∧
      s.version = CgroupVersion.V1 :=
    ⟨"11:cpu,cpuacct:/b", by decide, Subsys.mk CgroupVersion.V1 "/b", by decide, rfl⟩
  exact ⟨hx, subsys_v1_sticky.2.2 _ hx⟩

/-- C5: mount-table parsing takes fields 3 and 4 as root and mount
point across any number of optional fields before the "-" separator,
maps the token after "-" to a version (cgroup to V1, cgroup2 to V2,
anything else rejects), keeps a v1 line only when its super options
list cpu, rejects a separator-less line on its own while scanning
continues, and the first line of the requested version wins. -/
theorem mountinfo_fields_scan :
    (∀ line : String, MountInfo.parse_line line = MountInfo.parse_fields (splitChar ' ' line)) ∧
    (∀ (f0 f1 f2 root mp fstype dup sopts : String) (opts rest : List String),
      "-" ∉ opts →
      MountInfo.parse_fields
          (f0 :: f1 :: f2 :: root :: mp :: (opts ++ ("-" :: fstype :: dup :: sopts :: rest))) =
        (if fstype = "cgroup" then
          (if (splitChar ',' sopts).any (fun opt => opt == "cpu") then
            some (MountInfo.mk CgroupVersion.V1 root mp)
          else none)
        else if fstype = "cgroup2" then some (MountInfo.mk CgroupVersion.V2 root mp)
        else none)) ∧
    (∀ fields : List String, "-" ∉ fields.drop 5 → MountInfo.parse_fields fields = none) ∧
    (∀ (line : String) (ls : List String) (v : CgroupVersion),
      MountInfo.parse_line line = none →
      MountInfo.load_cpu (some (line :: ls)) v = MountInfo.load_cpu (some ls) v) ∧
    (∀ (line : String) (ls : List String) (mi : MountInfo),
      MountInfo.parse_line line = some mi →
      MountInfo.load_cpu (some (line :: ls)) mi.version = some mi) := by
  refine ⟨fun _ => rfl, ?_, ?_, ?_, ?_⟩
  · intro f0 f1 f2 root mp fstype dup sopts opts rest hopts
    have hdw : (opts ++ ("-" :: fstype :: dup :: sopts :: rest)).dropWhile
          (fun s => s != "-") = "-" :: fstype :: dup :: sopts :: rest := by
      rw [dropWhile_sep_append opts _ hopts]
      simp [List.dropWhile_cons]
    simp only [MountInfo.parse_fields, List.get?, List.drop, hdw]
    by_cases h1 : fstype = "cgroup"
    · simp [h1, List.get?]
    · by_cases h2 : fstype = "cgroup2"
      · simp [h1, h2]
      · simp [h1, h2]
  · intro fields hsep
    rcases hg3 : fields[3]? with _ | root
    · simp [MountInfo.parse_fields, hg3]
    · rcases hg4 : fields[4]? with _ | mp
      · simp [MountInfo.parse_fields, hg3, hg4]
      · simp [MountInfo.parse_fields, hg3, hg4, dropWhile_sep_nil _ hsep]
  · intro line ls v hnone
    simp [MountInfo.load_cpu, List.filterMap_cons, hnone]
  · intro line ls mi hsome
    simp [MountInfo.load_cpu, List.filterMap_cons, hsome, List.find?_cons]

/-- C5, witness: the doc-comment mount line (two optional fields)
parses to the v1 mount rooted at / on /sys/fs/cgroup/cpu,cpuacct, both
through the general field theorem and head-first through load_cpu. -/
theorem mountinfo_fields_scan_witness :
    "-" ∉ ["rw,nosuid,nodev,noexec,relatime", "shared:7"] ∧
    MountInfo.parse_fields
        ("7" :: "5" :: "0:6" :: "/" :: "/sys/fs/cgroup/cpu,cpuacct" ::
          (["rw,nosuid,nodev,noexec,relatime", "shared:7"] ++
            ("-" :: "cgroup" :: "cgroup" :: "rw,cpu,cpuacct" :: []))) =
      some (MountInfo.mk CgroupVersion.V1 "/" "/sys/fs/cgroup/cpu,cpuacct") ∧
    MountInfo.load_cpu (some [mountLineFixture]) CgroupVersion.V1 =
      some (MountInfo.mk CgroupVersion.V1 "/" "/sys/fs/cgroup/cpu,cpuacct") := by
  refine ⟨by decide, ?_, ?_⟩
  · have h := mountinfo_fields_scan.2.1 "7" "5" "0:6" "/" "/sys/fs/cgroup/cpu,cpuacct"
      "cgroup" "cgroup" "rw,cpu,cpuacct" ["rw,nosuid,nodev,noexec,relatime", "shared:7"] []
      (by decide)
    rw [h]
    decide
  · have hp : MountInfo.parse_line mountLineFixture =
        some (MountInfo.mk CgroupVersion.V1 "/" "/sys/fs/cgroup/cpu,cpuacct") := by decide
    exact mountinfo_fields_scan.2.2.2.2 mountLineFixture []
      (MountInfo.mk CgroupVersion.V1 "/" "/sys/fs/cgroup/cpu,cpuacct") hp

/-- C6: the Once-guarded resolution runs at most once per process: a
call on an initialized state reads only the cache and leaves the state
untouched, every call leaves the flag set, and in any sequence of calls
starting at process state zero every caller observes the first call's
result while the state never changes after the first call — whatever
environments (changed files) the later calls see. -/
theorem cgroups_num_cpus_once_cached :
    (∀ (env : Env) (st : ProcState), st.once_done = true →
      cgroups_num_cpus env st =
        ((if st.cgroups_cpus > 0 then some st.cgroups_cpus else none), st)) ∧
    (∀ (env : Env) (st : ProcState), ((cgroups_num_cpus env st).2).once_done = true) ∧
    (∀ (env : Env) (envs : List Env),
      (∀ r ∈ (run_calls (env :: envs) ProcState.initial).1,
        r = (cgroups_num_cpus env ProcState.initial).1) ∧
      (run_calls (env :: envs) ProcState.initial).2 =
        (cgroups_num_cpus env ProcState.initial).2) := by
  refine ⟨?_, ?_, ?_⟩
  · intro env st h
    simp [cgroups_num_cpus, h]
  · intro env st
    by_cases h : st.once_done
    · simp [cgroups_num_cpus, h]
    · simp [cgroups_num_cpus, h]
  · intro env envs
    have hdone : ((cgroups_num_cpus env ProcState.initial).2).once_done = true := by
      simp [cgroups_num_cpus, ProcState.initial]
    have hval : (cgroups_num_cpus env ProcState.initial).1 =
        (if ((cgroups_num_cpus env ProcState.initial).2).cgroups_cpus > 0
         then some (((cgroups_num_cpus env ProcState.initial).2).cgroups_cpus) else none) := rfl
    have hrest := run_calls_after_init envs ((cgroups_num_cpus env ProcState.initial).2) hdone
    have hrc : run_calls (env :: envs) ProcState.initial =
        ((cgroups_num_cpus env ProcState.initial).1 ::
          (run_calls envs ((cgroups_num_cpus env ProcState.initial).2)).1,
         (run_calls envs ((cgroups_num_cpus env ProcState.initial).2)).2) := rfl
    constructor
    · intro r hr
      rw [hrc, hrest] at hr
      simp only [List.mem_cons, List.mem_map] at hr
      rcases hr with rfl | ⟨a, _, rfl⟩
      · rfl
      · exact hval.symm
    · rw [hrc, hrest]

/-- C6, witness: on an initialized state caching 5 CPUs, a call with an
unreadable environment returns the cached 5 and leaves the state
unchanged. -/
theorem cgroups_num_cpus_once_cached_witness :
    cgroups_num_cpus envUnreadable (ProcState.mk true 5) = (some 5, ProcState.mk true 5) := by
  have h := cgroups_num_cpus_once_cached.1 envUnreadable (ProcState.mk true 5) rfl
  simpa using h

/-- C7: the resolver never reports Some 0: a failed or zero-quota
resolution leaves the cache at 0 and cgroups_num_cpus maps it to None;
an unreadable membership file or mount table already makes load_cgroups
itself None.  (Every function in the pipeline is total — failures are
values, not exceptions.) -/
theorem cgroups_no_quota_fallback :
    (∀ (env : Env) (st : ProcState), (cgroups_num_cpus env st).1 ≠ some 0) ∧
    (∀ env : Env, load_cgroups env.cgroup_lines env.mountinfo_lines env.fs = none →
      (cgroups_num_cpus env ProcState.initial).1 = none) ∧
    (∀ env : Env, load_cgroups env.cgroup_lines env.mountinfo_lines env.fs = some 0 →
      (cgroups_num_cpus env ProcState.initial).1 = none) ∧
    (∀ (ml : Option (List String)) (fs : FS), load_cgroups none ml fs = none) ∧
    (∀ (cl : Option (List String)) (fs : FS), load_cgroups cl none fs = none) := by
  refine ⟨?_, ?_, ?_, ?_, ?_⟩
  · intro env st h
    simp only [cgroups_num_cpus] at h
    split at h <;> split at h <;> simp_all
  · intro env h
    simp [cgroups_num_cpus, ProcState.initial, init_cgroups, h]
  · intro env h
    simp [cgroups_num_cpus, ProcState.initial, init_cgroups, h]
  · intro ml fs
    rfl
  · intro cl fs
    cases hs : Subsys.load_cpu cl with
    | none => simp [load_cgroups, hs]
    | some sub => simp [load_cgroups, hs, MountInfo.load_cpu]

/-- C7, witness: with both proc files unreadable, load_cgroups is None
and the first call reports None. -/
theorem cgroups_no_quota_fallback_witness :
    load_cgroups none none fsEmpty = none ∧
    (cgroups_num_cpus envUnreadable ProcState.initial).1 = none := by
  have h : load_cgroups envUnreadable.cgroup_lines envUnreadable.mountinfo_lines
      envUnreadable.fs = none := rfl
  exact ⟨h, cgroups_no_quota_fallback.2.1 envUnreadable h⟩

/-- C8: versions are never mixed: MountInfo::load_cpu only returns a
mount of the version it was asked for, Cgroup::translate propagates the
mount's version, so along the load_cgroups pipeline the constructed
Cgroup and the selected MountInfo both carry the Subsys's version. -/
theorem version_invariant :
    (∀ (fileLines : Option (List String)) (v : CgroupVersion) (mi : MountInfo),
      MountInfo.load_cpu fileLines v = some mi → mi.version = v) ∧
    (∀ (mntinfo : MountInfo) (subsys : Subsys) (c : Cgroup),
      Cgroup.translate mntinfo subsys = some c → c.version = mntinfo.version) ∧
    (∀ (cl ml : Option (List String)) (subsys : Subsys) (mi : MountInfo) (c : Cgroup),
      Subsys.load_cpu cl = some subsys →
      MountInfo.load_cpu ml subsys.version = some mi →
      Cgroup.translate mi subsys = some c →
      mi.version = subsys.version ∧ c.version = subsys.version) := by
  have h1 : ∀ (fileLines : Option (List String)) (v : CgroupVersion) (mi : MountInfo),
      MountInfo.load_cpu fileLines v = some mi → mi.version = v := by
    intro fileLines v mi h
    cases fileLines with
    | none => simp [MountInfo.load_cpu] at h
    | some ls =>
      simp only [MountInfo.load_cpu] at h
      have hfind := List.find?_some h
      simpa using hfind
  have h2 : ∀ (mntinfo : MountInfo) (subsys : Subsys) (c : Cgroup),
      Cgroup.translate mntinfo subsys = some c → c.version = mntinfo.version := by
    intro mntinfo subsys c h
    unfold Cgroup.translate at h
    rcases hs : stripPrefixSegs (pathComponents subsys.base) (pathComponents mntinfo.root)
      with _ | rel
    · rw [hs] at h
      cases h
    · rw [hs] at h
      injection h with hmk
      subst hmk
      rfl
  refine ⟨h1, h2, ?_⟩
  intro cl ml subsys mi c _ hmi htr
  have hv := h1 ml subsys.version mi hmi
  exact ⟨hv, (h2 mi subsys c htr).trans hv⟩

/-- C8, witness: a v1 membership line and the doc-comment v1 mount line
resolve to a Subsys, MountInfo and Cgroup that all carry V1. -/
theorem version_invariant_witness :
    Subsys.load_cpu (some ["11:cpu,cpuacct:/"]) = some (Subsys.mk CgroupVersion.V1 "/") ∧
    MountInfo.load_cpu (some [mountLineFixture]) (Subsys.mk CgroupVersion.V1 "/").version =
      some (MountInfo.mk CgroupVersion.V1 "/" "/sys/fs/cgroup/cpu,cpuacct") ∧
    Cgroup.translate (MountInfo.mk CgroupVersion.V1 "/" "/sys/fs/cgroup/cpu,cpuacct")
        (Subsys.mk CgroupVersion.V1 "/") =
      some (Cgroup.mk CgroupVersion.V1 ["/", "sys", "fs", "cgroup", "cpu,cpuacct"]) ∧
    (MountInfo.mk CgroupVersion.V1 "/" "/sys/fs/cgroup/cpu,cpuacct").version =
      (Subsys.mk CgroupVersion.V1 "/").version ∧
    (Cgroup.mk CgroupVersion.V1 ["/", "sys", "fs", "cgroup", "cpu,cpuacct"]).version =
      (Subsys.mk CgroupVersion.V1 "/").version := by
  have ha : Subsys.load_cpu (some ["11:cpu,cpuacct:/"]) =
      some (Subsys.mk CgroupVersion.V1 "/") := by decide
  have hb : MountInfo.load_cpu (some [mountLineFixture]) (Subsys.mk CgroupVersion.V1 "/").version =
      some (MountInfo.mk CgroupVersion.V1 "/" "/sys/fs/cgroup/cpu,cpuacct") := by decide
  have hc : Cgroup.translate (MountInfo.mk CgroupVersion.V1 "/" "/sys/fs/cgroup/cpu,cpuacct")
      (Subsys.mk CgroupVersion.V1 "/") =
      some (Cgroup.mk CgroupVersion.V1 ["/", "sys", "fs", "cgroup", "cpu,cpuacct"]) := by decide
  have h := version_invariant.2.2 (some ["11:cpu,cpuacct:/"]) (some [mountLineFixture])
    (Subsys.mk CgroupVersion.V1 "/") (MountInfo.mk CgroupVersion.V1 "/" "/sys/fs/cgroup/cpu,cpuacct")
    (Cgroup.mk CgroupVersion.V1 ["/", "sys", "fs", "cgroup", "cpu,cpuacct"]) ha hb hc
  exact ⟨ha, hb, hc, h.1, h.2⟩

/-- C9: a v2 cpu.max whose first line carries the literal token max as
the quota field fails integer parsing, so Cgroup::max and cpu_quota are
both None — undiscoverable quota, not unlimited. -/
theorem v2_max_token_no_quota :
    ∀ (fs : FS) (c : Cgroup) (s line : String),
      c.version = CgroupVersion.V2 →
      fs c.base "cpu.max" = some s →
      rustFirstLine s = some line →
      (splitChar ' ' line).head? = some "max" →
      Cgroup.max fs c = none ∧ Cgroup.cpu_quota fs c = none := by
  intro fs c s line hv hfs hline htok
  have hparse : parseUsize "max" = none := by decide
  have hmax : Cgroup.max fs c = none := by
    simp only [Cgroup.max, Cgroup.raw_param, hfs, hline, htok, Option.some_bind, hparse]
  refine ⟨hmax, ?_⟩
  obtain ⟨ver, base⟩ := c
  simp only at hv
  subst hv
  simp [Cgroup.cpu_quota, hmax]

/-- C9, witness: cpu.max holding "max 100000" yields no quota. -/
theorem v2_max_token_no_quota_witness :
    fsMaxV2 ["/", "sys"] "cpu.max" = some "max 100000\n" ∧
    rustFirstLine "max 100000\n" = some "max 100000" ∧
    (splitChar ' ' "max 100000").head? = some "max" ∧
    Cgroup.cpu_quota fsMaxV2 (Cgroup.mk CgroupVersion.V2 ["/", "sys"]) = none := by
  refine ⟨rfl, by decide, by decide, ?_⟩
  exact (v2_max_token_no_quota fsMaxV2 (Cgroup.mk CgroupVersion.V2 ["/", "sys"])
    "max 100000\n" "max 100000" rfl rfl (by decide) (by decide)).2

/-- C10: a v1 cpu.cfs_quota_us whose trimmed contents begin with a
minus sign (the kernel's -1 unlimited sentinel) fails unsigned parsing,
so quota_us and cpu_quota are both None. -/
theorem v1_negative_quota_none :
    ∀ (fs : FS) (c : Cgroup) (s : String),
      c.version = CgroupVersion.V1 →
      fs c.base "cpu.cfs_quota_us" = some s →
      (trimString s).data.head? = some '-' →
      Cgroup.quota_us fs c = none ∧ Cgroup.cpu_quota fs c = none := by
  intro fs c s hv hfs hneg
  have hparse : parseUsize (trimString s) = none := parseUsizeChars_neg _ hneg
  have hquota : Cgroup.quota_us fs c = none := by
    simp only [Cgroup.quota_us, Cgroup.param, Cgroup.raw_param, hfs, hparse]
  refine ⟨hquota, ?_⟩
  obtain ⟨ver, base⟩ := c
  simp only at hv
  subst hv
  simp [Cgroup.cpu_quota, hquota]

/-- C10, witness: a quota file holding -1 yields no quota. -/
theorem v1_negative_quota_none_witness :
    fsNegV1 ["/"] "cpu.cfs_quota_us" = some "-1\n" ∧
    (trimString "-1\n").data.head? = some '-' ∧
    Cgroup.quota_us fsNegV1 (Cgroup.mk CgroupVersion.V1 ["/"]) = none ∧
    Cgroup.cpu_quota fsNegV1 (Cgroup.mk CgroupVersion.V1 ["/"]) = none := by
  have h := v1_negative_quota_none fsNegV1 (Cgroup.mk CgroupVersion.V1 ["/"]) "-1\n" rfl rfl
    (by decide)
  exact ⟨rfl, by decide, h.1, h.2⟩

/-- C3, witness: the docker/large example instantiates the general
segment-decomposition hypothesis and the translated directory is the
mount point extended by "large". -/
theorem translate_exact_segments_witness :
    pathComponents "/docker/01abcd/large" = pathComponents "/docker/01abcd" ++ ["large"] ∧
    Cgroup.translate (MountInfo.mk CgroupVersion.V1 "/docker/01abcd" "/sys/fs/cgroup/cpu")
        (Subsys.mk CgroupVersion.V1 "/docker/01abcd/large") =
      some (Cgroup.mk CgroupVersion.V1 (pathComponents "/sys/fs/cgroup/cpu" ++ ["large"])) :=
  ⟨by decide,
    translate_exact_segments.2.1
      (MountInfo.mk CgroupVersion.V1 "/docker/01abcd" "/sys/fs/cgroup/cpu")
      (Subsys.mk CgroupVersion.V1 "/docker/01abcd/large") ["large"] (by decide)⟩

end NumCpus

